import Mathlib

/-!
Shallow embedding of the per-bar trading-decision engine of the
InvestingJawn repository: `MLProbabilisticStrategy` in `src/strategy.py`
together with the risk constants of `src/config.py`.

Modelling conventions:
* Python floats are modelled as rationals (`ℚ`); `NaN`-able feature values
  are `Option ℚ` with `none` standing for `NaN`.
* A backtrader data feed, as the strategy reads it on one bar, is a record
  `Feed`: the externally maintained indicator values, the time-of-day
  encoding, the trailing `(close, volume)` history (most recent first) used
  by the VWAP-gap computation, and the broker-owned current signed position.
* `next` is the pure denotation of one call of
  `MLProbabilisticStrategy.next`: it returns the list of broker calls the
  strategy issues on that bar, in order.  Inside one `next` call backtrader
  executes no orders, so all position reads use the bar-start snapshot,
  exactly as `self.getposition(d).size` does in the source.
* Python `sorted(xs, key=k)` is a stable ascending sort by `k`; the unique
  stable sort for a total preorder is `List.mergeSort` with
  `le a b := k a ≤ k b`.
-/

namespace InvestingJawn

/-- From `src/config.py`: `MAX_POSITION_PCT = 0.20`. -/
def MAX_POSITION_PCT : ℚ := 20/100

/-- From `src/config.py`: `CASH_BUFFER_PCT = 0.05`. -/
def CASH_BUFFER_PCT : ℚ := 5/100

/-- From `src/config.py`: `MAX_SECTOR_POSITIONS = 3`. -/
def MAX_SECTOR_POSITIONS : Nat := 3

/-- From `src/config.py`: `TRAIL_PERCENT = 0.05`. -/
def TRAIL_PERCENT : ℚ := 5/100

/-- From `src/config.py`: `MIN_EDGE = 0.0005`.  Imported by
`src/backtesting.py` but read by no code path of the strategy. -/
def MIN_EDGE : ℚ := 5/10000

/-- The keys of the `params` dict of `MLProbabilisticStrategy`
(`src/strategy.py` lines 50–55): the only option names the strategy
recognizes.  backtrader forwards any other keyword on to
`Strategy.__init__`, which takes none. -/
def paramsKeys : List String :=
  ["min_bars", "p_long", "p_short", "max_long_short"]

/-- The strategy parameters (`src/strategy.py` lines 50–55). -/
structure Params where
  min_bars : Nat
  p_long : ℚ
  p_short : ℚ
  max_long_short : Nat
deriving DecidableEq

/-- The default parameter values of the `params` dict. -/
def defaultParams : Params :=
  { min_bars := 30, p_long := 58/100, p_short := 42/100, max_long_short := 10 }

/-- One data feed as `next` reads it on the current bar: the indicator
values delivered by the `_Indicators` bundle (each `Option ℚ`, `none` for
`NaN`), the time-of-day encoding computed from the bar timestamp, the
trailing `(close, volume)` history with the current bar first, and the
broker-owned signed position size. -/
structure Feed where
  id : Nat
  sma5 : Option ℚ
  sma20 : Option ℚ
  rsi14 : Option ℚ
  bb_upper : Option ℚ
  bb_lower : Option ℚ
  ret1 : Option ℚ
  ret2 : Option ℚ
  ret5 : Option ℚ
  atr14 : Option ℚ
  tod_sin : ℚ
  tod_cos : ℚ
  hist : List (ℚ × ℚ)
  pos : Int
deriving DecidableEq

/-- The 20-bar VWAP gap (`src/strategy.py` lines 113–119):
`close / (pv_sum / vol_sum) - 1` over the trailing 20 bars (current bar
included), `none` (`NaN`) when fewer than 20 bars exist or the trailing
volume sum is zero. -/
def vwapGap (hist : List (ℚ × ℚ)) : Option ℚ :=
  match hist with
  | [] => none
  | (c0, _) :: _ =>
    if 20 ≤ hist.length then
      let w := hist.take 20
      let pv_sum := (w.map fun cv => cv.1 * cv.2).sum
      let vol_sum := (w.map fun cv => cv.2).sum
      if vol_sum = 0 then none else some (c0 / (pv_sum / vol_sum) - 1)
    else none

/-- The feature row assembled in `next` (`src/strategy.py` lines 121–128),
in the `FEATURE_COLS` order; `Mom_1` aliases `Return_1` (line 40). -/
def feats (f : Feed) : List (Option ℚ) :=
  [f.sma5, f.sma20, f.rsi14, f.bb_upper, f.bb_lower,
   f.ret1, f.ret2, f.ret5, f.atr14, f.ret1,
   some f.tod_sin, some f.tod_cos, vwapGap f.hist]

/-- A scored instrument: the tuple `(d, p_up, ind.atr14[0])` appended to
`scores` in `src/strategy.py` line 136. -/
structure Score where
  feed : Feed
  p : ℚ
  atr : ℚ
deriving DecidableEq

/-- The scoring loop of `next` (`src/strategy.py` lines 103–136): an
instrument with any `NaN` feature is skipped (`np.isnan(feats).any()`,
line 130); otherwise the classifier probability is recorded.  The
classifier is the external collaborator `predict`. -/
def buildScores (predict : List ℚ → ℚ) (feeds : List Feed) : List Score :=
  feeds.filterMap fun f =>
    if (feats f).all (fun x => x.isSome) then
      some { feed := f, p := predict ((feats f).map fun x => x.getD 0),
             atr := f.atr14.getD 0 }
    else none

/-- The long selection (`src/strategy.py` lines 138–141): stable sort of
`scores` descending by probability, filter `p >= p_long`, truncate to
`max_long_short`. -/
def longsOf (pr : Params) (scores : List Score) : List Score :=
  ((scores.mergeSort fun a b => decide (b.p ≤ a.p)).filter
      fun s => decide (pr.p_long ≤ s.p)).take pr.max_long_short

/-- The short selection (`src/strategy.py` lines 143–146): stable sort of
`scores` ascending by probability, filter `p <= p_short`, truncate to
`max_long_short`. -/
def shortsOf (pr : Params) (scores : List Score) : List Score :=
  ((scores.mergeSort fun a b => decide (a.p ≤ b.p)).filter
      fun s => decide (s.p ≤ pr.p_short)).take pr.max_long_short

/-- The per-instrument target allocation (`src/strategy.py` lines 151–154)
for `n = len(longs) + len(shorts)` selected instruments. -/
def targetPct (n : Nat) : ℚ :=
  min MAX_POSITION_PCT ((1 - CASH_BUFFER_PCT) / (n : ℚ))

/-- A broker call issued by `next`: `self.close(d)`,
`self.order_target_percent(d, pct)`, or a trailing-stop submission
`self.sell(d, exectype=bt.Order.StopTrail, trailpercent=...)` /
`self.buy(d, exectype=bt.Order.StopTrail, trailpercent=...)`. -/
inductive Action where
  | close (id : Nat)
  | orderTargetPercent (id : Nat) (pct : ℚ)
  | sellStopTrail (id : Nat) (trailpercent : ℚ)
  | buyStopTrail (id : Nat) (trailpercent : ℚ)
deriving DecidableEq

/-- The `_sector_ok` helper (`src/strategy.py` lines 77–91).  The sector
map is the association list `sectorMap`; it is `{}` in `__init__`
(line 74) and nothing in the repository ever fills it, so the first branch
always fires in the shipped program. -/
def sector_ok (sectorMap : List (Nat × Nat)) (feeds : List Feed)
    (ticker : Nat) (goingLong : Bool) : Bool :=
  if sectorMap.isEmpty then true
  else
    match sectorMap.lookup ticker with
    | none => true
    | some sec =>
      let base := (feeds.filter fun f =>
        decide (f.pos ≠ 0) && decide (sectorMap.lookup f.id = some sec)).length
      let active := if goingLong then base + 1 else base
      decide (active ≤ MAX_SECTOR_POSITIONS)

/-- The sector map constructed in `__init__` (`src/strategy.py` line 74):
empty, with a comment to fill it from a sector CSV that no code does. -/
def initSectorMap : List (Nat × Nat) := []

/-- The stale-position reconciliation loop (`src/strategy.py`
lines 156–162): a positive position absent from the selected longs, or a
negative position absent from the selected shorts, is fully closed.  The
`d not in [x[0] for x in longs]` membership test compares the data-feed
objects, modelled by `Feed` equality. -/
def reconcile (longs shorts : List Score) (feeds : List Feed) : List Action :=
  feeds.filterMap fun f =>
    if 0 < f.pos ∧ f ∉ longs.map Score.feed then some (Action.close f.id)
    else if f.pos < 0 ∧ f ∉ shorts.map Score.feed then some (Action.close f.id)
    else none

/-- The open/rebalance loops (`src/strategy.py` lines 164–175): for each
selected long, submit the sizing order and, when the bar-start position is
zero, a sell-side trailing stop at the literal `trailpercent=0.05`;
symmetrically (buy-side) for shorts with target `-tgt`. -/
def entryActions (sectorMap : List (Nat × Nat)) (feeds : List Feed)
    (tgt : ℚ) (longs shorts : List Score) : List Action :=
  (longs.flatMap fun s =>
    if sector_ok sectorMap feeds s.feed.id true then
      Action.orderTargetPercent s.feed.id tgt ::
        (if s.feed.pos = 0 then [Action.sellStopTrail s.feed.id (5/100)] else [])
    else []) ++
  (shorts.flatMap fun s =>
    if sector_ok sectorMap feeds s.feed.id false then
      Action.orderTargetPercent s.feed.id (-tgt) ::
        (if s.feed.pos = 0 then [Action.buyStopTrail s.feed.id (5/100)] else [])
    else [])

/-- One call of `MLProbabilisticStrategy.next` (`src/strategy.py`
lines 99–175) as the ordered list of broker calls it issues.  `barLen` is
`len(self)`, the number of bars elapsed. -/
def next (pr : Params) (predict : List ℚ → ℚ) (sectorMap : List (Nat × Nat))
    (barLen : Nat) (feeds : List Feed) : List Action :=
  if barLen < pr.min_bars then []
  else
    let scores := buildScores predict feeds
    let longs := longsOf pr scores
    let shorts := shortsOf pr scores
    if longs = [] ∧ shorts = [] then []
    else
      reconcile longs shorts feeds ++
        entryActions sectorMap feeds (targetPct (longs.length + shorts.length))
          longs shorts

/-- A broker fill notification `(order id, status)`. -/
structure OrderNotif where
  oid : Nat
  status : Nat
deriving DecidableEq

/-- The strategy's own mutable attribute state: only `sector_map` is ever
assigned (`src/strategy.py` line 74). -/
structure StratState where
  sector_map : List (Nat × Nat)
deriving DecidableEq

/-- Fill-notification handling of the strategy.  `MLProbabilisticStrategy`
does not override backtrader's `Strategy.notify_order`, whose body is
`pass`: every fill notification leaves the strategy state untouched. -/
def notify_order (st : StratState) (_o : OrderNotif) : StratState := st

/-- Whether an action is a trailing-stop submission for instrument `i`. -/
def isStopFor (i : Nat) : Action → Bool
  | Action.sellStopTrail j _ => j == i
  | Action.buyStopTrail j _ => j == i
  | _ => false

/-- The number of trailing-stop orders submitted for instrument `i` in a
list of broker calls. -/
def stopSubmissions (acts : List Action) (i : Nat) : Nat :=
  acts.countP (isStopFor i)

/-- Whether an action is a `self.close(d)` call. -/
def isClose : Action → Bool
  | Action.close _ => true
  | _ => false

/-- Modelled from the spec (§4.3): the long-candidate predicate with the
minimum-edge filter, `probability ≥ p_long` and `probability − 0.5 ≥
min_edge`; no such filter appears in `src/strategy.py`. -/
def specLongCandidate (p_long min_edge p : ℚ) : Prop :=
  p_long ≤ p ∧ min_edge ≤ p - 1/2

/-- Modelled from the spec (§4.3): the long selection with the claimed
deterministic tie-break — sort descending by probability, ties broken by
ascending instrument identifier — then filter and truncate as the code
does. -/
def specLongsOf (pr : Params) (scores : List Score) : List Score :=
  ((scores.mergeSort fun a b =>
      decide (b.p < a.p ∨ (a.p = b.p ∧ a.feed.id ≤ b.feed.id))).filter
      fun s => decide (pr.p_long ≤ s.p)).take pr.max_long_short

/-- A concrete feed with every indicator present (value 0), a 20-bar
constant history of closes 2 and volumes 3, and the given position. -/
def okFeed (i : Nat) (pos : Int) : Feed :=
  { id := i, sma5 := some 0, sma20 := some 0, rsi14 := some 0,
    bb_upper := some 0, bb_lower := some 0, ret1 := some 0, ret2 := some 0,
    ret5 := some 0, atr14 := some 0, tod_sin := 0, tod_cos := 0,
    hist := [(2,3),(2,3),(2,3),(2,3),(2,3),(2,3),(2,3),(2,3),(2,3),(2,3),
             (2,3),(2,3),(2,3),(2,3),(2,3),(2,3),(2,3),(2,3),(2,3),(2,3)],
    pos := pos }

/-- A concrete feed whose `SMA_5` indicator is `NaN`: its instrument is
dropped from scoring. -/
def nanFeed (i : Nat) (pos : Int) : Feed :=
  { okFeed i pos with sma5 := none }

/-- A classifier stub returning probability 0.7 for every row. -/
def predict70 : List ℚ → ℚ := fun _ => 7/10

/-- Parameters with thresholds inverted (`p_long = 0.40 < p_short = 0.60`),
used to exhibit a probability selected on both sides. -/
def crossedParams : Params :=
  { min_bars := 30, p_long := 2/5, p_short := 3/5, max_long_short := 10 }

/-- The §8 scenario scores: A=0.62, B=0.59, C=0.41, D=0.50 with instrument
identifiers 0–3. -/
def scenarioScores : List Score :=
  [{ feed := okFeed 0 0, p := 62/100, atr := 0 },
   { feed := okFeed 1 0, p := 59/100, atr := 0 },
   { feed := okFeed 2 0, p := 41/100, atr := 0 },
   { feed := okFeed 3 0, p := 1/2, atr := 0 }]

/-- Two scores tied at probability 0.70, listed with the larger identifier
first. -/
def tieScores : List Score :=
  [{ feed := okFeed 1 0, p := 7/10, atr := 0 },
   { feed := okFeed 0 0, p := 7/10, atr := 0 }]

/-- Three qualifying longs of probabilities 0.70, 0.65, 0.60 (identifiers
0, 1, 2), listed out of order. -/
def threeLongScores : List Score :=
  [{ feed := okFeed 1 0, p := 65/100, atr := 0 },
   { feed := okFeed 0 0, p := 7/10, atr := 0 },
   { feed := okFeed 2 0, p := 6/10, atr := 0 }]

/-- Default parameters with `max_long_short = 1`. -/
def maxOneParams : Params :=
  { min_bars := 30, p_long := 58/100, p_short := 42/100, max_long_short := 1 }

/-- A score with probability exactly 0.5. -/
def halfScore : Score := { feed := okFeed 0 0, p := 1/2, atr := 0 }

/-- A score with probability 0.60. -/
def p60Score : Score := { feed := okFeed 0 0, p := 3/5, atr := 0 }

/-! ### Helper lemmas -/

theorem mem_longsOf {pr : Params} {scores : List Score} {s : Score}
    (h : s ∈ longsOf pr scores) : s ∈ scores ∧ pr.p_long ≤ s.p := by
  unfold longsOf at h
  have h1 := (List.take_sublist _ _).mem h
  rw [List.mem_filter] at h1
  exact ⟨(List.mergeSort_perm scores _).mem_iff.mp h1.1, by simpa using h1.2⟩

theorem mem_shortsOf {pr : Params} {scores : List Score} {s : Score}
    (h : s ∈ shortsOf pr scores) : s ∈ scores ∧ s.p ≤ pr.p_short := by
  unfold shortsOf at h
  have h1 := (List.take_sublist _ _).mem h
  rw [List.mem_filter] at h1
  exact ⟨(List.mergeSort_perm scores _).mem_iff.mp h1.1, by simpa using h1.2⟩

theorem longsOf_ids_sublist (pr : Params) (scores : List Score) :
    ((longsOf pr scores).map fun s => s.feed.id).Sublist
      ((scores.mergeSort fun a b => decide (b.p ≤ a.p)).map fun s => s.feed.id) :=
  ((List.take_sublist _ _).trans (List.filter_sublist _)).map _

theorem shortsOf_ids_sublist (pr : Params) (scores : List Score) :
    ((shortsOf pr scores).map fun s => s.feed.id).Sublist
      ((scores.mergeSort fun a b => decide (a.p ≤ b.p)).map fun s => s.feed.id) :=
  ((List.take_sublist _ _).trans (List.filter_sublist _)).map _

theorem longsOf_ids_nodup {pr : Params} {scores : List Score}
    (hn : (scores.map fun s => s.feed.id).Nodup) :
    ((longsOf pr scores).map fun s => s.feed.id).Nodup :=
  (longsOf_ids_sublist pr scores).nodup
    ((((List.mergeSort_perm scores _).map fun s => s.feed.id).symm).nodup hn)

theorem shortsOf_ids_nodup {pr : Params} {scores : List Score}
    (hn : (scores.map fun s => s.feed.id).Nodup) :
    ((shortsOf pr scores).map fun s => s.feed.id).Nodup :=
  (shortsOf_ids_sublist pr scores).nodup
    ((((List.mergeSort_perm scores _).map fun s => s.feed.id).symm).nodup hn)

theorem longsOf_shortsOf_id_disjoint {pr : Params} {scores : List Score} {i : Nat}
    (hp : pr.p_short < pr.p_long)
    (hn : (scores.map fun s => s.feed.id).Nodup)
    (hl : i ∈ (longsOf pr scores).map fun s => s.feed.id)
    (hs : i ∈ (shortsOf pr scores).map fun s => s.feed.id) : False := by
  obtain ⟨s, hsmem, hsid⟩ := List.mem_map.mp hl
  obtain ⟨t, htmem, htid⟩ := List.mem_map.mp hs
  have h1 := mem_longsOf hsmem
  have h2 := mem_shortsOf htmem
  have hst : s = t :=
    List.inj_on_of_nodup_map hn h1.1 h2.1 (by rw [hsid, htid])
  subst hst
  have := h1.2.trans h2.2
  exact absurd (this.trans_lt hp) (lt_irrefl _)

theorem mem_reconcile {longs shorts : List Score} {feeds : List Feed} {a : Action}
    (h : a ∈ reconcile longs shorts feeds) :
    ∃ f ∈ feeds, a = Action.close f.id ∧
      ((0 < f.pos ∧ f ∉ longs.map Score.feed) ∨
       (f.pos < 0 ∧ f ∉ shorts.map Score.feed)) := by
  unfold reconcile at h
  obtain ⟨f, hf, heq⟩ := List.mem_filterMap.mp h
  by_cases h1 : 0 < f.pos ∧ f ∉ longs.map Score.feed
  · rw [if_pos h1] at heq
    exact ⟨f, hf, (Option.some_inj.mp heq).symm, Or.inl h1⟩
  · rw [if_neg h1] at heq
    by_cases h2 : f.pos < 0 ∧ f ∉ shorts.map Score.feed
    · rw [if_pos h2] at heq
      exact ⟨f, hf, (Option.some_inj.mp heq).symm, Or.inr h2⟩
    · rw [if_neg h2] at heq
      exact absurd heq (by simp)

theorem close_mem_reconcile {longs shorts : List Score} {feeds : List Feed} {f : Feed}
    (hf : f ∈ feeds)
    (hc : (0 < f.pos ∧ f ∉ longs.map Score.feed) ∨
          (f.pos < 0 ∧ f ∉ shorts.map Score.feed)) :
    Action.close f.id ∈ reconcile longs shorts feeds := by
  unfold reconcile
  rw [List.mem_filterMap]
  refine ⟨f, hf, ?_⟩
  rcases hc with h1 | h2
  · rw [if_pos h1]
  · have hne : ¬(0 < f.pos ∧ f ∉ longs.map Score.feed) := by
      rintro ⟨hpos, -⟩
      exact absurd (hpos.trans h2.1) (lt_irrefl _)
    rw [if_neg hne, if_pos h2]

theorem mem_entryActions {sm : List (Nat × Nat)} {feeds : List Feed} {tgt : ℚ}
    {longs shorts : List Score} {a : Action}
    (h : a ∈ entryActions sm feeds tgt longs shorts) :
    (∃ s ∈ longs, a = Action.orderTargetPercent s.feed.id tgt ∨
       (a = Action.sellStopTrail s.feed.id (5/100) ∧ s.feed.pos = 0)) ∨
    (∃ s ∈ shorts, a = Action.orderTargetPercent s.feed.id (-tgt) ∨
       (a = Action.buyStopTrail s.feed.id (5/100) ∧ s.feed.pos = 0)) := by
  unfold entryActions at h
  rcases List.mem_append.mp h with h | h <;>
    [left; right] <;>
  · obtain ⟨s, hs, ha⟩ := List.mem_flatMap.mp h
    refine ⟨s, hs, ?_⟩
    split at ha
    · rcases List.mem_cons.mp ha with rfl | ha
      · exact Or.inl rfl
      · split at ha
        · rcases List.mem_singleton.mp ha with rfl
          exact Or.inr ⟨rfl, by assumption⟩
        · exact absurd ha (List.not_mem_nil a)
    · exact absurd ha (List.not_mem_nil a)

theorem entryActions_not_close {sm : List (Nat × Nat)} {feeds : List Feed} {tgt : ℚ}
    {longs shorts : List Score} {a : Action}
    (h : a ∈ entryActions sm feeds tgt longs shorts) : isClose a = false := by
  rcases mem_entryActions h with ⟨s, -, h | ⟨h, -⟩⟩ | ⟨s, -, h | ⟨h, -⟩⟩ <;>
    subst h <;> rfl

theorem reconcile_is_close {longs shorts : List Score} {feeds : List Feed} {a : Action}
    (h : a ∈ reconcile longs shorts feeds) : isClose a = true := by
  obtain ⟨f, -, rfl, -⟩ := mem_reconcile h
  rfl

theorem next_eq {pr : Params} {predict : List ℚ → ℚ} {sm : List (Nat × Nat)}
    {barLen : Nat} {feeds : List Feed}
    (hwarm : pr.min_bars ≤ barLen)
    (hsel : ¬(longsOf pr (buildScores predict feeds) = [] ∧
              shortsOf pr (buildScores predict feeds) = [])) :
    next pr predict sm barLen feeds =
      reconcile (longsOf pr (buildScores predict feeds))
          (shortsOf pr (buildScores predict feeds)) feeds ++
        entryActions sm feeds
          (targetPct ((longsOf pr (buildScores predict feeds)).length +
            (shortsOf pr (buildScores predict feeds)).length))
          (longsOf pr (buildScores predict feeds))
          (shortsOf pr (buildScores predict feeds)) := by
  rw [next, if_neg (Nat.not_lt.mpr hwarm)]
  exact if_neg hsel

theorem targetPct_pos {n : Nat} (h : 0 < n) : 0 < targetPct n := by
  have hn : (0:ℚ) < n := by exact_mod_cast h
  unfold targetPct MAX_POSITION_PCT CASH_BUFFER_PCT
  apply lt_min (by norm_num)
  positivity

theorem targetPct_le_max (n : Nat) : targetPct n ≤ MAX_POSITION_PCT :=
  min_le_left _ _

theorem targetPct_mul_le {n : Nat} (h : 0 < n) :
    targetPct n * n ≤ 1 - CASH_BUFFER_PCT := by
  have hn : (0:ℚ) < n := by exact_mod_cast h
  calc targetPct n * n ≤ ((1 - CASH_BUFFER_PCT) / n) * n :=
        mul_le_mul_of_nonneg_right (min_le_right _ _) hn.le
    _ = 1 - CASH_BUFFER_PCT := div_mul_cancel₀ _ hn.ne'

theorem buildScores_ids_sublist (predict : List ℚ → ℚ) (feeds : List Feed) :
    ((buildScores predict feeds).map fun s => s.feed.id).Sublist
      (feeds.map Feed.id) := by
  induction feeds with
  | nil => simp [buildScores]
  | cons f fs ih =>
    unfold buildScores at ih ⊢
    rw [List.filterMap_cons]
    split
    · exact ih.trans (List.sublist_cons_self _ _)
    · rename_i s hs
      have hfeed : s.feed = f := by
        split at hs
        · exact congrArg Score.feed (Option.some_inj.mp hs).symm ▸ rfl
        · exact absurd hs (by simp)
      rw [List.map_cons, List.map_cons, hfeed]
      exact ih.cons₂ _

theorem scores_ids_nodup (predict : List ℚ → ℚ) {feeds : List Feed}
    (hn : (feeds.map Feed.id).Nodup) :
    ((buildScores predict feeds).map fun s => s.feed.id).Nodup :=
  (buildScores_ids_sublist predict feeds).nodup hn

theorem countP_stops_longPart (i : Nat) (sm : List (Nat × Nat)) (feeds : List Feed)
    (tgt : ℚ) (L : List Score) :
    (L.flatMap fun s =>
      if sector_ok sm feeds s.feed.id true then
        Action.orderTargetPercent s.feed.id tgt ::
          (if s.feed.pos = 0 then [Action.sellStopTrail s.feed.id (5/100)] else [])
      else []).countP (isStopFor i) ≤ (L.map fun s => s.feed.id).count i := by
  induction L with
  | nil => simp
  | cons s L ih =>
    rw [List.flatMap_cons, List.countP_append, List.map_cons, List.count_cons]
    have hhead : (if sector_ok sm feeds s.feed.id true then
        Action.orderTargetPercent s.feed.id tgt ::
          (if s.feed.pos = 0 then [Action.sellStopTrail s.feed.id (5/100)] else [])
      else [] : List Action).countP (isStopFor i) ≤
        if (s.feed.id == i) = true then 1 else 0 := by
      by_cases hid : s.feed.id = i <;>
        split <;> split <;>
          simp_all [List.countP_cons, isStopFor]
    omega

theorem countP_stops_shortPart (i : Nat) (sm : List (Nat × Nat)) (feeds : List Feed)
    (tgt : ℚ) (L : List Score) :
    (L.flatMap fun s =>
      if sector_ok sm feeds s.feed.id false then
        Action.orderTargetPercent s.feed.id (-tgt) ::
          (if s.feed.pos = 0 then [Action.buyStopTrail s.feed.id (5/100)] else [])
      else []).countP (isStopFor i) ≤ (L.map fun s => s.feed.id).count i := by
  induction L with
  | nil => simp
  | cons s L ih =>
    rw [List.flatMap_cons, List.countP_append, List.map_cons, List.count_cons]
    have hhead : (if sector_ok sm feeds s.feed.id false then
        Action.orderTargetPercent s.feed.id (-tgt) ::
          (if s.feed.pos = 0 then [Action.buyStopTrail s.feed.id (5/100)] else [])
      else [] : List Action).countP (isStopFor i) ≤
        if (s.feed.id == i) = true then 1 else 0 := by
      by_cases hid : s.feed.id = i <;>
        split <;> split <;>
          simp_all [List.countP_cons, isStopFor]
    omega

theorem stop_pos_mem_longPart {i : Nat} {sm : List (Nat × Nat)} {feeds : List Feed}
    {tgt : ℚ} {L : List Score}
    (h : 0 < (L.flatMap fun s =>
      if sector_ok sm feeds s.feed.id true then
        Action.orderTargetPercent s.feed.id tgt ::
          (if s.feed.pos = 0 then [Action.sellStopTrail s.feed.id (5/100)] else [])
      else []).countP (isStopFor i)) :
    i ∈ L.map fun s => s.feed.id := by
  obtain ⟨a, ha, hpa⟩ := List.countP_pos_iff.mp h
  obtain ⟨s, hs, hax⟩ := List.mem_flatMap.mp ha
  split at hax
  · rcases List.mem_cons.mp hax with rfl | hax
    · exact absurd hpa (by simp [isStopFor])
    · split at hax
      · rcases List.mem_singleton.mp hax with rfl
        have : s.feed.id = i := by simpa [isStopFor] using hpa
        exact this ▸ List.mem_map_of_mem _ hs
      · exact absurd hax (List.not_mem_nil a)
  · exact absurd hax (List.not_mem_nil a)

theorem stop_pos_mem_shortPart {i : Nat} {sm : List (Nat × Nat)} {feeds : List Feed}
    {tgt : ℚ} {L : List Score}
    (h : 0 < (L.flatMap fun s =>
      if sector_ok sm feeds s.feed.id false then
        Action.orderTargetPercent s.feed.id (-tgt) ::
          (if s.feed.pos = 0 then [Action.buyStopTrail s.feed.id (5/100)] else [])
      else []).countP (isStopFor i)) :
    i ∈ L.map fun s => s.feed.id := by
  obtain ⟨a, ha, hpa⟩ := List.countP_pos_iff.mp h
  obtain ⟨s, hs, hax⟩ := List.mem_flatMap.mp ha
  split at hax
  · rcases List.mem_cons.mp hax with rfl | hax
    · exact absurd hpa (by simp [isStopFor])
    · split at hax
      · rcases List.mem_singleton.mp hax with rfl
        have : s.feed.id = i := by simpa [isStopFor] using hpa
        exact this ▸ List.mem_map_of_mem _ hs
      · exact absurd hax (List.not_mem_nil a)
  · exact absurd hax (List.not_mem_nil a)

theorem stopSubmissions_reconcile (longs shorts : List Score) (feeds : List Feed)
    (i : Nat) : stopSubmissions (reconcile longs shorts feeds) i = 0 := by
  unfold stopSubmissions
  rw [List.countP_eq_zero]
  intro a ha
  obtain ⟨f, -, rfl, -⟩ := mem_reconcile ha
  simp [isStopFor]

theorem stopSubmissions_next_le_one {pr : Params} {predict : List ℚ → ℚ}
    {sm : List (Nat × Nat)} {barLen : Nat} {feeds : List Feed} (i : Nat)
    (hp : pr.p_short < pr.p_long)
    (hn : (feeds.map Feed.id).Nodup) :
    stopSubmissions (next pr predict sm barLen feeds) i ≤ 1 := by
  rw [next]
  split
  · simp [stopSubmissions]
  · dsimp only
    split
    · simp [stopSubmissions]
    · rw [stopSubmissions, List.countP_append,
        show (List.countP (isStopFor i) (reconcile _ _ feeds)) = 0 from
          stopSubmissions_reconcile _ _ feeds i]
      rw [entryActions, List.countP_append]
      have hnodS := scores_ids_nodup predict hn
      have hL := countP_stops_longPart i sm feeds
        (targetPct ((longsOf pr (buildScores predict feeds)).length +
          (shortsOf pr (buildScores predict feeds)).length))
        (longsOf pr (buildScores predict feeds))
      have hS := countP_stops_shortPart i sm feeds
        (targetPct ((longsOf pr (buildScores predict feeds)).length +
          (shortsOf pr (buildScores predict feeds)).length))
        (shortsOf pr (buildScores predict feeds))
      have hL1 : (((longsOf pr (buildScores predict feeds)).map
          fun s => s.feed.id).count i) ≤ 1 :=
        List.nodup_iff_count_le_one.mp (longsOf_ids_nodup hnodS) i
      have hS1 : (((shortsOf pr (buildScores predict feeds)).map
          fun s => s.feed.id).count i) ≤ 1 :=
        List.nodup_iff_count_le_one.mp (shortsOf_ids_nodup hnodS) i
      by_cases hLpos : 0 < (List.countP (isStopFor i)
          ((longsOf pr (buildScores predict feeds)).flatMap fun s =>
            if sector_ok sm feeds s.feed.id true then
              Action.orderTargetPercent s.feed.id
                  (targetPct ((longsOf pr (buildScores predict feeds)).length +
                    (shortsOf pr (buildScores predict feeds)).length)) ::
                (if s.feed.pos = 0 then
                  [Action.sellStopTrail s.feed.id (5/100)] else [])
            else []))
      · by_cases hSpos : 0 < (List.countP (isStopFor i)
            ((shortsOf pr (buildScores predict feeds)).flatMap fun s =>
              if sector_ok sm feeds s.feed.id false then
                Action.orderTargetPercent s.feed.id
                    (-(targetPct ((longsOf pr (buildScores predict feeds)).length +
                      (shortsOf pr (buildScores predict feeds)).length))) ::
                  (if s.feed.pos = 0 then
                    [Action.buyStopTrail s.feed.id (5/100)] else [])
              else []))
        · exact absurd (longsOf_shortsOf_id_disjoint hp hnodS
            (stop_pos_mem_longPart hLpos) (stop_pos_mem_shortPart hSpos)) id
        · omega
      · omega

theorem next_nil_warmup {pr : Params} {predict : List ℚ → ℚ}
    {sm : List (Nat × Nat)} {barLen : Nat} {feeds : List Feed}
    (h : barLen < pr.min_bars) : next pr predict sm barLen feeds = [] := by
  rw [next, if_pos h]

theorem next_nil_empty {pr : Params} {predict : List ℚ → ℚ}
    {sm : List (Nat × Nat)} {barLen : Nat} {feeds : List Feed}
    (hL : longsOf pr (buildScores predict feeds) = [])
    (hS : shortsOf pr (buildScores predict feeds) = []) :
    next pr predict sm barLen feeds = [] := by
  rw [next]
  split
  · rfl
  · dsimp only
    rw [if_pos ⟨hL, hS⟩]

theorem longsOf_sorted (pr : Params) (scores : List Score) :
    (longsOf pr scores).Pairwise fun a b => b.p ≤ a.p := by
  have hs := @List.sorted_mergeSort Score (fun a b => decide (b.p ≤ a.p))
      (fun a b c h1 h2 => by
        simp only [decide_eq_true_eq] at h1 h2 ⊢
        exact le_trans h2 h1)
      (fun a b => by
        simp only [Bool.or_eq_true, decide_eq_true_eq]
        exact le_total b.p a.p)
      scores
  have hsub : (longsOf pr scores).Sublist
      (scores.mergeSort fun a b => decide (b.p ≤ a.p)) :=
    (List.take_sublist _ _).trans (List.filter_sublist _)
  exact (hs.sublist hsub).imp fun h => by simpa using h

theorem shortsOf_sorted (pr : Params) (scores : List Score) :
    (shortsOf pr scores).Pairwise fun a b => a.p ≤ b.p := by
  have hs := @List.sorted_mergeSort Score (fun a b => decide (a.p ≤ b.p))
      (fun a b c h1 h2 => by
        simp only [decide_eq_true_eq] at h1 h2 ⊢
        exact le_trans h1 h2)
      (fun a b => by
        simp only [Bool.or_eq_true, decide_eq_true_eq]
        exact le_total a.p b.p)
      scores
  have hsub : (shortsOf pr scores).Sublist
      (scores.mergeSort fun a b => decide (a.p ≤ b.p)) :=
    (List.take_sublist _ _).trans (List.filter_sublist _)
  exact (hs.sublist hsub).imp fun h => by simpa using h

/-! ### Concrete evaluations -/

theorem vwapGap_hist20 :
    vwapGap [(2,3),(2,3),(2,3),(2,3),(2,3),(2,3),(2,3),(2,3),(2,3),(2,3),
             (2,3),(2,3),(2,3),(2,3),(2,3),(2,3),(2,3),(2,3),(2,3),(2,3)] =
      some 0 := by
  norm_num [vwapGap]

theorem buildScores_pair (pf : List ℚ → ℚ) :
    buildScores pf [okFeed 0 0, nanFeed 7 1] =
      [{ feed := okFeed 0 0, p := pf [0,0,0,0,0,0,0,0,0,0,0,0,0], atr := 0 }] := by
  simp [buildScores, List.filterMap_cons, feats, okFeed, nanFeed, vwapGap_hist20]

theorem buildScores_one (pf : List ℚ → ℚ) :
    buildScores pf [okFeed 0 0] =
      [{ feed := okFeed 0 0, p := pf [0,0,0,0,0,0,0,0,0,0,0,0,0], atr := 0 }] := by
  simp [buildScores, List.filterMap_cons, feats, okFeed, vwapGap_hist20]

theorem next_conc (barLen : Nat) (h : 30 ≤ barLen) :
    next defaultParams predict70 [] barLen [okFeed 0 0, nanFeed 7 1] =
      [Action.close 7,
       Action.orderTargetPercent 0 (targetPct 1),
       Action.sellStopTrail 0 (5/100)] := by
  rw [next, if_neg (by simp [defaultParams]; omega), buildScores_pair]
  norm_num [longsOf, shortsOf, defaultParams, List.mergeSort, predict70,
    reconcile, entryActions, sector_ok, okFeed, nanFeed, List.filterMap_cons]

theorem next_conc_one (barLen : Nat) (h : 30 ≤ barLen) :
    next defaultParams predict70 [] barLen [okFeed 0 0] =
      [Action.orderTargetPercent 0 (targetPct 1),
       Action.sellStopTrail 0 (5/100)] := by
  rw [next, if_neg (by simp [defaultParams]; omega), buildScores_one]
  norm_num [longsOf, shortsOf, defaultParams, List.mergeSort, predict70,
    reconcile, entryActions, sector_ok, okFeed, List.filterMap_cons]

/-! ### Claim C1 -/

/-- Claim C1, counterexample.  Fill notifications are not processed by the
strategy at all (the inherited handler is the identity), so processing one
twice is indeed a no-op — but the protective-stop invariant fails: the stop
is submitted inline with the entry whenever the bar-start position is zero,
so an instrument re-selected while its entry fill is still delayed receives
a second trailing stop.  Concretely, instrument 0 (probability 0.7, position
still 0 on both bars) accumulates two trailing-stop submissions across bars
30 and 31, not exactly one. -/
theorem C1_counterexample :
    notify_order (notify_order { sector_map := [] } { oid := 1, status := 4 })
        { oid := 1, status := 4 } =
      notify_order { sector_map := [] } { oid := 1, status := 4 } ∧
    stopSubmissions
      (next defaultParams predict70 [] 30 [okFeed 0 0] ++
       next defaultParams predict70 [] 31 [okFeed 0 0]) 0 = 2 := by
  refine ⟨rfl, ?_⟩
  rw [next_conc_one 30 (by omega), next_conc_one 31 (by omega)]
  norm_num [stopSubmissions, List.countP_cons, isStopFor]

/-- Claim C1 (amended): the strategy ignores fill notifications (the
inherited `notify_order` is `pass`, so a repeated notification changes
nothing), and within any single evaluated bar at most one trailing-stop
order is submitted per instrument, provided `p_short < p_long` (true of
every shipped configuration) and the feed identifiers are distinct.  Across
bars no uniqueness holds (see the counterexample). -/
theorem C1_stop_per_bar (st : StratState) (o : OrderNotif) (pr : Params)
    (predict : List ℚ → ℚ) (sm : List (Nat × Nat)) (barLen : Nat)
    (feeds : List Feed) (i : Nat)
    (hp : pr.p_short < pr.p_long) (hn : (feeds.map Feed.id).Nodup) :
    notify_order st o = st ∧
      stopSubmissions (next pr predict sm barLen feeds) i ≤ 1 :=
  ⟨rfl, stopSubmissions_next_le_one i hp hn⟩

/-- Witness for `C1_stop_per_bar` at a concrete input. -/
theorem C1_stop_per_bar_witness :
    (defaultParams.p_short < defaultParams.p_long ∧
      (([okFeed 0 0].map Feed.id).Nodup)) ∧
    (notify_order { sector_map := [] } { oid := 1, status := 4 } =
        { sector_map := [] } ∧
      stopSubmissions (next defaultParams predict70 [] 30 [okFeed 0 0]) 0 ≤ 1) :=
  ⟨⟨by norm_num [defaultParams], by simp⟩,
   C1_stop_per_bar _ _ _ _ _ _ _ _ (by norm_num [defaultParams]) (by simp)⟩

/-! ### Claim C2 -/

/-- Claim C2, counterexample.  The disjointness of the selected long and
short lists does not hold "under any configuration": with the thresholds
crossed (`p_long = 0.40`, `p_short = 0.60`), an instrument scored exactly
0.5 is selected on both sides. -/
theorem C2_counterexample :
    0 ∈ (longsOf crossedParams [halfScore]).map (fun s => s.feed.id) ∧
    0 ∈ (shortsOf crossedParams [halfScore]).map (fun s => s.feed.id) := by
  constructor <;>
    norm_num [longsOf, shortsOf, crossedParams, halfScore, List.mergeSort, okFeed]

/-- Claim C2 (amended): whenever `p_short < p_long` — true of the default
parameters and of every configuration swept in the repository — no
instrument identifier appears in both the selected long list and the
selected short list, for every probability assignment with distinct
identifiers. -/
theorem C2_long_short_disjoint (pr : Params) (scores : List Score) (i : Nat)
    (hp : pr.p_short < pr.p_long)
    (hn : (scores.map fun s => s.feed.id).Nodup) :
    i ∈ (longsOf pr scores).map (fun s => s.feed.id) →
      i ∉ (shortsOf pr scores).map (fun s => s.feed.id) :=
  fun hl hs => longsOf_shortsOf_id_disjoint hp hn hl hs

/-- Witness for `C2_long_short_disjoint` at a concrete input. -/
theorem C2_long_short_disjoint_witness :
    (defaultParams.p_short < defaultParams.p_long ∧
      (([p60Score].map fun s => s.feed.id).Nodup)) ∧
    (0 ∈ (longsOf defaultParams [p60Score]).map (fun s => s.feed.id) →
      0 ∉ (shortsOf defaultParams [p60Score]).map (fun s => s.feed.id)) :=
  ⟨⟨by norm_num [defaultParams], by simp⟩,
   C2_long_short_disjoint _ _ _ (by norm_num [defaultParams]) (by simp)⟩

/-! ### Claim C3 -/

/-- Claim C3: on every evaluated bar (warm-up passed, selection nonempty),
a `close` call is issued exactly for the instruments holding a positive
position outside the selected longs or a negative position outside the
selected shorts, and every `close` precedes every entry/stop submission. -/
theorem C3_reconciliation (pr : Params) (predict : List ℚ → ℚ)
    (sm : List (Nat × Nat)) (barLen : Nat) (feeds : List Feed)
    (hwarm : pr.min_bars ≤ barLen)
    (hsel : ¬(longsOf pr (buildScores predict feeds) = [] ∧
              shortsOf pr (buildScores predict feeds) = [])) :
    (∀ i : Nat, Action.close i ∈ next pr predict sm barLen feeds ↔
      ∃ f ∈ feeds, f.id = i ∧
        ((0 < f.pos ∧
            f ∉ (longsOf pr (buildScores predict feeds)).map Score.feed) ∨
         (f.pos < 0 ∧
            f ∉ (shortsOf pr (buildScores predict feeds)).map Score.feed))) ∧
    (∃ cs es, next pr predict sm barLen feeds = cs ++ es ∧
      (∀ a ∈ cs, isClose a = true) ∧ ∀ a ∈ es, isClose a = false) := by
  rw [next_eq hwarm hsel]
  constructor
  · intro i
    constructor
    · intro h
      rcases List.mem_append.mp h with h | h
      · obtain ⟨f, hf, heq, hc⟩ := mem_reconcile h
        injection heq with hid
        exact ⟨f, hf, hid.symm, hc⟩
      · have := entryActions_not_close h
        simp [isClose] at this
    · rintro ⟨f, hf, rfl, hc⟩
      exact List.mem_append.mpr (Or.inl (close_mem_reconcile hf hc))
  · exact ⟨_, _, rfl, fun a ha => reconcile_is_close ha,
      fun a ha => entryActions_not_close ha⟩

/-- Witness for `C3_reconciliation`: on bar 30 with a scored instrument 0
(probability 0.7) and a stale long position on unscored instrument 7, the
hypotheses hold. -/
theorem C3_reconciliation_witness :
    (defaultParams.min_bars ≤ 30 ∧
      ¬(longsOf defaultParams (buildScores predict70 [okFeed 0 0, nanFeed 7 1]) = [] ∧
        shortsOf defaultParams (buildScores predict70 [okFeed 0 0, nanFeed 7 1]) = [])) ∧
    ((∀ i : Nat,
      Action.close i ∈ next defaultParams predict70 [] 30 [okFeed 0 0, nanFeed 7 1] ↔
      ∃ f ∈ [okFeed 0 0, nanFeed 7 1], f.id = i ∧
        ((0 < f.pos ∧
            f ∉ (longsOf defaultParams
              (buildScores predict70 [okFeed 0 0, nanFeed 7 1])).map Score.feed) ∨
         (f.pos < 0 ∧
            f ∉ (shortsOf defaultParams
              (buildScores predict70 [okFeed 0 0, nanFeed 7 1])).map Score.feed))) ∧
    (∃ cs es, next defaultParams predict70 [] 30 [okFeed 0 0, nanFeed 7 1] = cs ++ es ∧
      (∀ a ∈ cs, isClose a = true) ∧ ∀ a ∈ es, isClose a = false)) := by
  have hsel : ¬(longsOf defaultParams
      (buildScores predict70 [okFeed 0 0, nanFeed 7 1]) = [] ∧
      shortsOf defaultParams (buildScores predict70 [okFeed 0 0, nanFeed 7 1]) = []) := by
    rw [buildScores_pair]
    norm_num [longsOf, defaultParams, List.mergeSort, predict70]
  exact ⟨⟨by norm_num [defaultParams], hsel⟩,
    C3_reconciliation defaultParams predict70 [] 30 [okFeed 0 0, nanFeed 7 1]
      (by norm_num [defaultParams]) hsel⟩

/-! ### Claim C10 -/

/-- Claim C10: on a bar where the warm-up is incomplete, or where no
instrument qualifies for either side, `next` issues no broker call at all —
no entry, no stop, no close — leaving every existing position untouched. -/
theorem C10_frame_no_op (pr : Params) (predict : List ℚ → ℚ)
    (sm : List (Nat × Nat)) (barLen : Nat) (feeds : List Feed) :
    (barLen < pr.min_bars → next pr predict sm barLen feeds = []) ∧
    (longsOf pr (buildScores predict feeds) = [] →
      shortsOf pr (buildScores predict feeds) = [] →
      next pr predict sm barLen feeds = []) :=
  ⟨fun h => next_nil_warmup h, fun hL hS => next_nil_empty hL hS⟩

/-- Witness for `C10_frame_no_op`: bar 5 is inside the default 30-bar
warm-up, so the bar is a no-op. -/
theorem C10_frame_no_op_witness :
    (5 < defaultParams.min_bars) ∧
    next defaultParams predict70 [] 5 [okFeed 0 0] = [] :=
  ⟨by norm_num [defaultParams],
   (C10_frame_no_op defaultParams predict70 [] 5 [okFeed 0 0]).1
     (by norm_num [defaultParams])⟩

/-! ### Claim C4 -/

/-- Claim C4, counterexample.  The code applies no minimum-edge filter:
with `min_edge = 0.2` (the spec exposes `min_edge` as free configuration)
and the default `p_long = 0.58`, the instrument scored 0.60 is selected
long although its edge 0.10 violates `probability − 0.5 ≥ min_edge`. -/
theorem C4_counterexample :
    0 ∈ (longsOf defaultParams [p60Score]).map (fun s => s.feed.id) ∧
    ¬ specLongCandidate defaultParams.p_long (1/5) ((3:ℚ)/5) := by
  constructor
  · norm_num [longsOf, defaultParams, p60Score, List.mergeSort, okFeed]
  · norm_num [specLongCandidate, defaultParams]

/-- Claim C4 (amended): a long candidate satisfies only `probability ≥
p_long` and a short candidate only `probability ≤ p_short`; the minimum-edge
conditions additionally hold exactly when `min_edge ≤ p_long − 0.5` and
`min_edge ≤ 0.5 − p_short`, which every shipped configuration satisfies
(`min_edge ≤ 0.001` against edges ≥ 0.08).  The §8 scenario holds as
stated: longs = [A, B], shorts = [C], D excluded. -/
theorem C4_threshold_selection (pr : Params) (scores : List Score) (s : Score)
    (minEdge : ℚ)
    (hL : minEdge ≤ pr.p_long - 1/2) (hS : minEdge ≤ 1/2 - pr.p_short) :
    (s ∈ longsOf pr scores → pr.p_long ≤ s.p ∧ minEdge ≤ s.p - 1/2) ∧
    (s ∈ shortsOf pr scores → s.p ≤ pr.p_short ∧ minEdge ≤ 1/2 - s.p) ∧
    (longsOf defaultParams scenarioScores).map (fun t => t.feed.id) = [0, 1] ∧
    (shortsOf defaultParams scenarioScores).map (fun t => t.feed.id) = [2] := by
  refine ⟨?_, ?_, ?_, ?_⟩
  · intro h
    have hm := mem_longsOf h
    exact ⟨hm.2, by linarith [hm.2]⟩
  · intro h
    have hm := mem_shortsOf h
    exact ⟨hm.2, by linarith [hm.2]⟩
  · norm_num [longsOf, defaultParams, scenarioScores, List.mergeSort,
      List.merge, okFeed]
  · norm_num [shortsOf, defaultParams, scenarioScores, List.mergeSort,
      List.merge, okFeed]

/-- Witness for `C4_threshold_selection` at the §8 scenario input with
`min_edge = 0.001`. -/
theorem C4_threshold_selection_witness :
    ((1:ℚ)/1000 ≤ defaultParams.p_long - 1/2 ∧
      (1:ℚ)/1000 ≤ 1/2 - defaultParams.p_short) ∧
    ((⟨okFeed 0 0, 62/100, 0⟩ ∈ longsOf defaultParams scenarioScores →
        defaultParams.p_long ≤ (62:ℚ)/100 ∧ (1:ℚ)/1000 ≤ 62/100 - 1/2) ∧
     (⟨okFeed 0 0, 62/100, 0⟩ ∈ shortsOf defaultParams scenarioScores →
        (62:ℚ)/100 ≤ defaultParams.p_short ∧ (1:ℚ)/1000 ≤ 1/2 - 62/100) ∧
     (longsOf defaultParams scenarioScores).map (fun t => t.feed.id) = [0, 1] ∧
     (shortsOf defaultParams scenarioScores).map (fun t => t.feed.id) = [2]) :=
  ⟨⟨by norm_num [defaultParams], by norm_num [defaultParams]⟩,
   C4_threshold_selection defaultParams scenarioScores ⟨okFeed 0 0, 62/100, 0⟩
     (1/1000) (by norm_num [defaultParams]) (by norm_num [defaultParams])⟩

/-! ### Claim C7 -/

/-- Claim C7 (code bug in the program): of the nine option names the spec
lists as recognized, the strategy's `params` dict recognizes only
`min_bars`, `p_long`, `p_short` and `max_long_short`; `trail_percent`,
`min_edge`, `max_position_pct`, `cash_buffer_pct` and `trade_shorts` are
not strategy parameters, although `backtesting.py`'s documented example and
both sweep drivers pass them. -/
theorem C7_recognized_options :
    "p_long" ∈ paramsKeys ∧ "p_short" ∈ paramsKeys ∧
    "max_long_short" ∈ paramsKeys ∧ "min_bars" ∈ paramsKeys ∧
    "trail_percent" ∉ paramsKeys ∧ "min_edge" ∉ paramsKeys ∧
    "max_position_pct" ∉ paramsKeys ∧ "cash_buffer_pct" ∉ paramsKeys ∧
    "trade_shorts" ∉ paramsKeys := by
  norm_num [paramsKeys]
  decide

/-! ### Claim C5 -/

/-- Claim C5: every sizing order submitted by `next` carries the magnitude
`min(MAX_POSITION_PCT, (1 − CASH_BUFFER_PCT)/(n_long + n_short))`, positive
for a selected long and negative for a selected short; the magnitude is
positive, at most `MAX_POSITION_PCT`, and its product with the candidate
count is at most `1 − CASH_BUFFER_PCT`. -/
theorem C5_target_allocation (pr : Params) (predict : List ℚ → ℚ)
    (sm : List (Nat × Nat)) (barLen : Nat) (feeds : List Feed)
    (i : Nat) (pct : ℚ)
    (h : Action.orderTargetPercent i pct ∈ next pr predict sm barLen feeds) :
    0 < (longsOf pr (buildScores predict feeds)).length +
        (shortsOf pr (buildScores predict feeds)).length ∧
    ((∃ s ∈ longsOf pr (buildScores predict feeds), s.feed.id = i ∧
        pct = targetPct ((longsOf pr (buildScores predict feeds)).length +
          (shortsOf pr (buildScores predict feeds)).length)) ∨
     (∃ s ∈ shortsOf pr (buildScores predict feeds), s.feed.id = i ∧
        pct = -targetPct ((longsOf pr (buildScores predict feeds)).length +
          (shortsOf pr (buildScores predict feeds)).length))) ∧
    targetPct ((longsOf pr (buildScores predict feeds)).length +
        (shortsOf pr (buildScores predict feeds)).length) =
      min MAX_POSITION_PCT ((1 - CASH_BUFFER_PCT) /
        ((((longsOf pr (buildScores predict feeds)).length +
          (shortsOf pr (buildScores predict feeds)).length : Nat)) : ℚ)) ∧
    0 < targetPct ((longsOf pr (buildScores predict feeds)).length +
        (shortsOf pr (buildScores predict feeds)).length) ∧
    targetPct ((longsOf pr (buildScores predict feeds)).length +
        (shortsOf pr (buildScores predict feeds)).length) ≤ MAX_POSITION_PCT ∧
    targetPct ((longsOf pr (buildScores predict feeds)).length +
        (shortsOf pr (buildScores predict feeds)).length) *
      ((((longsOf pr (buildScores predict feeds)).length +
        (shortsOf pr (buildScores predict feeds)).length : Nat)) : ℚ) ≤
      1 - CASH_BUFFER_PCT := by
  by_cases hwarm : barLen < pr.min_bars
  · rw [next_nil_warmup hwarm] at h
    exact absurd h (List.not_mem_nil _)
  by_cases hsel : longsOf pr (buildScores predict feeds) = [] ∧
      shortsOf pr (buildScores predict feeds) = []
  · rw [next_nil_empty hsel.1 hsel.2] at h
    exact absurd h (List.not_mem_nil _)
  have hn : 0 < (longsOf pr (buildScores predict feeds)).length +
      (shortsOf pr (buildScores predict feeds)).length := by
    rcases not_and_or.mp hsel with h' | h' <;>
      · have := List.length_pos.mpr h'
        omega
  refine ⟨hn, ?_, rfl, targetPct_pos hn, targetPct_le_max _, targetPct_mul_le hn⟩
  rw [next_eq (Nat.not_lt.mp hwarm) hsel] at h
  rcases List.mem_append.mp h with hmem | hmem
  · obtain ⟨f, -, heq, -⟩ := mem_reconcile hmem
    exact absurd heq (by simp)
  · rcases mem_entryActions hmem with ⟨s, hs, hcase⟩ | ⟨s, hs, hcase⟩
    · rcases hcase with heq | ⟨heq, -⟩
      · injection heq with h1 h2
        exact Or.inl ⟨s, hs, h1.symm, h2⟩
      · exact absurd heq (by simp)
    · rcases hcase with heq | ⟨heq, -⟩
      · injection heq with h1 h2
        exact Or.inr ⟨s, hs, h1.symm, h2⟩
      · exact absurd heq (by simp)

/-- Witness for `C5_target_allocation` at a concrete input. -/
theorem C5_target_allocation_witness :
    (Action.orderTargetPercent 0 (targetPct 1) ∈
      next defaultParams predict70 [] 30 [okFeed 0 0]) ∧
    (0 < (longsOf defaultParams (buildScores predict70 [okFeed 0 0])).length +
        (shortsOf defaultParams (buildScores predict70 [okFeed 0 0])).length ∧
    ((∃ s ∈ longsOf defaultParams (buildScores predict70 [okFeed 0 0]),
        s.feed.id = 0 ∧
        targetPct 1 = targetPct
          ((longsOf defaultParams (buildScores predict70 [okFeed 0 0])).length +
          (shortsOf defaultParams (buildScores predict70 [okFeed 0 0])).length)) ∨
     (∃ s ∈ shortsOf defaultParams (buildScores predict70 [okFeed 0 0]),
        s.feed.id = 0 ∧
        targetPct 1 = -targetPct
          ((longsOf defaultParams (buildScores predict70 [okFeed 0 0])).length +
          (shortsOf defaultParams (buildScores predict70 [okFeed 0 0])).length))) ∧
    targetPct ((longsOf defaultParams (buildScores predict70 [okFeed 0 0])).length +
        (shortsOf defaultParams (buildScores predict70 [okFeed 0 0])).length) =
      min MAX_POSITION_PCT ((1 - CASH_BUFFER_PCT) /
        ((((longsOf defaultParams (buildScores predict70 [okFeed 0 0])).length +
          (shortsOf defaultParams (buildScores predict70 [okFeed 0 0])).length :
            Nat)) : ℚ)) ∧
    0 < targetPct ((longsOf defaultParams (buildScores predict70 [okFeed 0 0])).length +
        (shortsOf defaultParams (buildScores predict70 [okFeed 0 0])).length) ∧
    targetPct ((longsOf defaultParams (buildScores predict70 [okFeed 0 0])).length +
        (shortsOf defaultParams (buildScores predict70 [okFeed 0 0])).length) ≤
      MAX_POSITION_PCT ∧
    targetPct ((longsOf defaultParams (buildScores predict70 [okFeed 0 0])).length +
        (shortsOf defaultParams (buildScores predict70 [okFeed 0 0])).length) *
      ((((longsOf defaultParams (buildScores predict70 [okFeed 0 0])).length +
        (shortsOf defaultParams (buildScores predict70 [okFeed 0 0])).length :
          Nat)) : ℚ) ≤ 1 - CASH_BUFFER_PCT) := by
  have hm : Action.orderTargetPercent 0 (targetPct 1) ∈
      next defaultParams predict70 [] 30 [okFeed 0 0] := by
    rw [next_conc_one 30 (by omega)]
    exact List.mem_cons_self _ _
  exact ⟨hm, C5_target_allocation defaultParams predict70 [] 30 [okFeed 0 0] 0
    (targetPct 1) hm⟩

/-! ### Claim C6 -/

theorem stable_pair_filter_long (pr : Params) (scores : List Score) (s t : Score)
    (hsub : [s, t].Sublist scores) (hts : t.p ≤ s.p) :
    ([s, t].filter fun x => decide (pr.p_long ≤ x.p)).Sublist
      ((scores.mergeSort fun a b => decide (b.p ≤ a.p)).filter
        fun x => decide (pr.p_long ≤ x.p)) := by
  refine List.Sublist.filter _ ?_
  refine List.sublist_mergeSort
    (fun a b c h1 h2 => by
      simp only [decide_eq_true_eq] at h1 h2 ⊢
      exact le_trans h2 h1)
    (fun a b => by
      simp only [Bool.or_eq_true, decide_eq_true_eq]
      exact le_total b.p a.p)
    ?_ hsub
  simp [hts]

/-- Claim C6, counterexample.  The code sorts with Python's stable sort and
applies no identifier tie-break: two scores tied at probability 0.70,
listed with identifier 1 before identifier 0, are selected in feed order
`[1, 0]`, while the spec's tie-break (ascending identifier) dictates
`[0, 1]`. -/
theorem C6_counterexample :
    (longsOf defaultParams tieScores).map (fun s => s.feed.id) = [1, 0] ∧
    (specLongsOf defaultParams tieScores).map (fun s => s.feed.id) = [0, 1] ∧
    longsOf defaultParams tieScores ≠ specLongsOf defaultParams tieScores := by
  have h1 : (longsOf defaultParams tieScores).map (fun s => s.feed.id) = [1, 0] := by
    norm_num [longsOf, defaultParams, tieScores, List.mergeSort, List.merge, okFeed]
  have h2 : (specLongsOf defaultParams tieScores).map (fun s => s.feed.id) = [0, 1] := by
    norm_num [specLongsOf, defaultParams, tieScores, List.mergeSort, List.merge,
      okFeed]
  refine ⟨h1, h2, fun hEq => ?_⟩
  rw [hEq, h2] at h1
  exact absurd h1 (by decide)

/-- Claim C6 (amended): longs are sorted descending and shorts ascending by
probability, each list is truncated to `max_long_short` entries, and the
`max_long_short = 1` scenario selects exactly the 0.70 instrument; ties,
however, keep the original feed order (Python's stable sort), not the
ascending-identifier order the spec claims — among qualifying candidates a
tied pair retains its input order up to the point of truncation. -/
theorem C6_ordering (pr : Params) (scores : List Score) (s t : Score)
    (hsub : [s, t].Sublist scores) (hts : t.p ≤ s.p) :
    (longsOf pr scores).Pairwise (fun a b => b.p ≤ a.p) ∧
    (shortsOf pr scores).Pairwise (fun a b => a.p ≤ b.p) ∧
    (longsOf pr scores).length ≤ pr.max_long_short ∧
    (shortsOf pr scores).length ≤ pr.max_long_short ∧
    ([s, t].filter fun x => decide (pr.p_long ≤ x.p)).Sublist
      ((scores.mergeSort fun a b => decide (b.p ≤ a.p)).filter
        fun x => decide (pr.p_long ≤ x.p)) ∧
    (longsOf maxOneParams threeLongScores).map (fun x => x.feed.id) = [0] := by
  refine ⟨longsOf_sorted pr scores, shortsOf_sorted pr scores,
    List.length_take_le _ _, List.length_take_le _ _,
    stable_pair_filter_long pr scores s t hsub hts, ?_⟩
  norm_num [longsOf, maxOneParams, threeLongScores, List.mergeSort, List.merge,
    okFeed]

/-- Witness for `C6_ordering` at the tied pair of `tieScores`. -/
theorem C6_ordering_witness :
    (([{ feed := okFeed 1 0, p := 7/10, atr := 0 },
       { feed := okFeed 0 0, p := (7:ℚ)/10, atr := 0 }] :
        List Score).Sublist tieScores ∧ (7:ℚ)/10 ≤ 7/10) ∧
    ((longsOf defaultParams tieScores).Pairwise (fun a b => b.p ≤ a.p) ∧
    (shortsOf defaultParams tieScores).Pairwise (fun a b => a.p ≤ b.p) ∧
    (longsOf defaultParams tieScores).length ≤ defaultParams.max_long_short ∧
    (shortsOf defaultParams tieScores).length ≤ defaultParams.max_long_short ∧
    (([{ feed := okFeed 1 0, p := 7/10, atr := 0 },
       { feed := okFeed 0 0, p := (7:ℚ)/10, atr := 0 }] :
        List Score).filter fun x => decide (defaultParams.p_long ≤ x.p)).Sublist
      ((tieScores.mergeSort fun a b => decide (b.p ≤ a.p)).filter
        fun x => decide (defaultParams.p_long ≤ x.p)) ∧
    (longsOf maxOneParams threeLongScores).map (fun x => x.feed.id) = [0]) :=
  ⟨⟨List.Sublist.refl _, le_refl _⟩,
   C6_ordering defaultParams tieScores _ _ (List.Sublist.refl _) (le_refl _)⟩

/-! ### Claim C8 -/

/-- Claim C8: every trailing-stop submission is directed opposite its
entry — a sell-side stop only for a selected long, a buy-side stop only for
a selected short — and carries trail distance `TRAIL_PERCENT` (the literal
`trailpercent=0.05` of `src/strategy.py`, equal to `config.TRAIL_PERCENT`). -/
theorem C8_protective_stops (pr : Params) (predict : List ℚ → ℚ)
    (sm : List (Nat × Nat)) (barLen : Nat) (feeds : List Feed)
    (i : Nat) (t : ℚ) :
    (Action.sellStopTrail i t ∈ next pr predict sm barLen feeds →
      t = TRAIL_PERCENT ∧
      i ∈ (longsOf pr (buildScores predict feeds)).map fun s => s.feed.id) ∧
    (Action.buyStopTrail i t ∈ next pr predict sm barLen feeds →
      t = TRAIL_PERCENT ∧
      i ∈ (shortsOf pr (buildScores predict feeds)).map fun s => s.feed.id) := by
  constructor
  · intro h
    by_cases hwarm : barLen < pr.min_bars
    · rw [next_nil_warmup hwarm] at h
      exact absurd h (List.not_mem_nil _)
    by_cases hsel : longsOf pr (buildScores predict feeds) = [] ∧
        shortsOf pr (buildScores predict feeds) = []
    · rw [next_nil_empty hsel.1 hsel.2] at h
      exact absurd h (List.not_mem_nil _)
    rw [next_eq (Nat.not_lt.mp hwarm) hsel] at h
    rcases List.mem_append.mp h with hmem | hmem
    · obtain ⟨f, -, heq, -⟩ := mem_reconcile hmem
      exact absurd heq (by simp)
    · rcases mem_entryActions hmem with ⟨s, hs, hcase⟩ | ⟨s, hs, hcase⟩
      · rcases hcase with heq | ⟨heq, -⟩
        · exact absurd heq (by simp)
        · injection heq with h1 h2
          subst h2
          refine ⟨rfl, ?_⟩
          rw [h1]
          exact List.mem_map_of_mem _ hs
      · rcases hcase with heq | ⟨heq, -⟩
        · exact absurd heq (by simp)
        · exact absurd heq (by simp)
  · intro h
    by_cases hwarm : barLen < pr.min_bars
    · rw [next_nil_warmup hwarm] at h
      exact absurd h (List.not_mem_nil _)
    by_cases hsel : longsOf pr (buildScores predict feeds) = [] ∧
        shortsOf pr (buildScores predict feeds) = []
    · rw [next_nil_empty hsel.1 hsel.2] at h
      exact absurd h (List.not_mem_nil _)
    rw [next_eq (Nat.not_lt.mp hwarm) hsel] at h
    rcases List.mem_append.mp h with hmem | hmem
    · obtain ⟨f, -, heq, -⟩ := mem_reconcile hmem
      exact absurd heq (by simp)
    · rcases mem_entryActions hmem with ⟨s, hs, hcase⟩ | ⟨s, hs, hcase⟩
      · rcases hcase with heq | ⟨heq, -⟩
        · exact absurd heq (by simp)
        · exact absurd heq (by simp)
      · rcases hcase with heq | ⟨heq, -⟩
        · exact absurd heq (by simp)
        · injection heq with h1 h2
          subst h2
          refine ⟨rfl, ?_⟩
          rw [h1]
          exact List.mem_map_of_mem _ hs

/-- Witness for `C8_protective_stops` at a concrete input. -/
theorem C8_protective_stops_witness :
    (Action.sellStopTrail 0 (5/100) ∈
      next defaultParams predict70 [] 30 [okFeed 0 0]) ∧
    ((5:ℚ)/100 = TRAIL_PERCENT ∧
      0 ∈ (longsOf defaultParams (buildScores predict70 [okFeed 0 0])).map
        fun s => s.feed.id) := by
  have hm : Action.sellStopTrail 0 (5/100) ∈
      next defaultParams predict70 [] 30 [okFeed 0 0] := by
    rw [next_conc_one 30 (by omega)]
    simp
  exact ⟨hm, (C8_protective_stops defaultParams predict70 [] 30 [okFeed 0 0]
    0 (5/100)).1 hm⟩

/-! ### Claim C9 -/

/-- Claim C9: the VWAP-gap feature equals
`close / (Σ close·volume / Σ volume) − 1` over the trailing 20-bar window,
is `NaN` (`none`) when fewer than 20 bars exist or the trailing volume sum
is zero, and any `NaN` feature drops the instrument from the round's
scoring. -/
theorem C9_vwap_gap (predict : List ℚ → ℚ) (feeds : List Feed) (f : Feed) :
    (∀ c0 v0 rest, f.hist = (c0, v0) :: rest → 20 ≤ f.hist.length →
      (((((f.hist.take 20).map fun cv => cv.2).sum ≠ 0) →
        vwapGap f.hist = some (c0 /
          ((((f.hist.take 20).map fun cv => cv.1 * cv.2).sum) /
            (((f.hist.take 20).map fun cv => cv.2).sum)) - 1)) ∧
       (((((f.hist.take 20).map fun cv => cv.2).sum = 0) →
        vwapGap f.hist = none)))) ∧
    (f.hist.length < 20 → vwapGap f.hist = none) ∧
    (vwapGap f.hist = none → ∀ s ∈ buildScores predict feeds, s.feed ≠ f) := by
  refine ⟨?_, ?_, ?_⟩
  · intro c0 v0 rest hh h20
    rw [hh] at h20 ⊢
    have hv : vwapGap ((c0, v0) :: rest) =
        if 20 ≤ ((c0, v0) :: rest).length then
          if ((((c0, v0) :: rest).take 20).map fun cv => cv.2).sum = 0 then none
          else some (c0 /
            (((((c0, v0) :: rest).take 20).map fun cv => cv.1 * cv.2).sum /
              ((((c0, v0) :: rest).take 20).map fun cv => cv.2).sum) - 1)
        else none := rfl
    constructor
    · intro hsum
      rw [hv, if_pos h20, if_neg hsum]
    · intro hsum
      rw [hv, if_pos h20, if_pos hsum]
  · intro hlt
    rcases hfh : f.hist with _ | ⟨⟨c0, v0⟩, rest⟩
    · rfl
    · rw [hfh] at hlt
      have hv : vwapGap ((c0, v0) :: rest) =
          if 20 ≤ ((c0, v0) :: rest).length then
            if ((((c0, v0) :: rest).take 20).map fun cv => cv.2).sum = 0 then none
            else some (c0 /
              (((((c0, v0) :: rest).take 20).map fun cv => cv.1 * cv.2).sum /
                ((((c0, v0) :: rest).take 20).map fun cv => cv.2).sum) - 1)
          else none := rfl
      rw [hv, if_neg (by omega)]
  · intro hnone s hsmem heq
    obtain ⟨g, -, hsome⟩ := List.mem_filterMap.mp hsmem
    split at hsome
    · rename_i hall
      have hfeed : s.feed = g := by
        have := Option.some_inj.mp hsome
        rw [← this]
      rw [heq] at hfeed
      have hmem := List.all_eq_true.mp hall (vwapGap g.hist) (by simp [feats])
      rw [← hfeed, hnone] at hmem
      simp at hmem
    · exact absurd hsome (by simp)

/-- Witness for `C9_vwap_gap` at the 20-bar constant history of `okFeed`. -/
theorem C9_vwap_gap_witness :
    ((okFeed 0 0).hist = ((2:ℚ), (3:ℚ)) ::
        [(2,3),(2,3),(2,3),(2,3),(2,3),(2,3),(2,3),(2,3),(2,3),
         (2,3),(2,3),(2,3),(2,3),(2,3),(2,3),(2,3),(2,3),(2,3),(2,3)] ∧
     20 ≤ (okFeed 0 0).hist.length ∧
     ((((okFeed 0 0).hist.take 20).map fun cv => cv.2).sum ≠ 0)) ∧
    vwapGap (okFeed 0 0).hist = some ((2:ℚ) /
      ((((okFeed 0 0).hist.take 20).map fun cv => cv.1 * cv.2).sum /
        (((okFeed 0 0).hist.take 20).map fun cv => cv.2).sum) - 1) := by
  have h1 : (okFeed 0 0).hist = ((2:ℚ), (3:ℚ)) ::
      [(2,3),(2,3),(2,3),(2,3),(2,3),(2,3),(2,3),(2,3),(2,3),
       (2,3),(2,3),(2,3),(2,3),(2,3),(2,3),(2,3),(2,3),(2,3),(2,3)] := rfl
  have h2 : 20 ≤ (okFeed 0 0).hist.length := by norm_num [okFeed]
  have h3 : ((((okFeed 0 0).hist.take 20).map fun cv => cv.2).sum ≠ 0) := by
    norm_num [okFeed]
  exact ⟨⟨h1, h2, h3⟩,
    ((C9_vwap_gap predict70 [okFeed 0 0] (okFeed 0 0)).1 2 3 _ h1 h2).1 h3⟩

end InvestingJawn
